import Mathlib

/-!
# Wallet ledger (src/main.go): shallow embedding and verification

The Go program is an HTTP wallet service backed by a Postgres store with a
`wallets (id, balance)` table keyed by `id` and an append-only
`transactions (time, from_wallet, to_wallet, amount)` table.  The
`DBStore` methods `CreateWallet`, `GetWallet`, `Transfer` and `GetHistory`
are embedded as pure functions over an explicit `DBState`.

Modelling decisions, each tied to the source:
* Go `float64` balances and amounts are modelled as exact rationals `ℚ`:
  the values the SQL arithmetic computes are taken at their ideal meaning.
  The representation question (which amounts a `float64` column can hold
  exactly) is modelled separately by `dyadicRational`.
* `uuid.New().String()` inside `CreateWallet` is modelled by passing the
  generated id as an argument.  The `wallets` table is keyed by `id`, so an
  `INSERT` with an id already present fails; the model returns
  `DBError.duplicateKey` in that case and the state is unchanged.
* `UPDATE wallets SET balance = balance ± $1 WHERE id = $2` updates every
  row whose id matches and reports no error when no row matches
  (`sql.Exec` of an UPDATE matching zero rows succeeds); `updateBalance`
  does exactly that.  The SQL `balance - $1` is modelled as adding `-$1`.
* `QueryRow(...).Scan` finding no row yields `sql.ErrNoRows`, modelled as
  `DBError.noRows`; the `fmt.Errorf("insufficient funds")` failure is
  `DBError.insufficientFunds`.
* The DB-assigned `time` column of a transaction row is modelled as the
  insertion index into the transactions table.
* `defer tx.Rollback()` plus the single final `tx.Commit()` make every
  error path leave the store untouched: an `Except.error` result carries
  no new state, and `applyOp` keeps the old state on error.
-/

/-- `Wallet` of src/main.go (lines 25-28): a row of the `wallets` table.
The Go `Balance float64` field is modelled as an exact rational. -/
structure Wallet where
  id : String
  balance : ℚ
deriving DecidableEq, Repr

/-- `Transaction` of src/main.go (lines 31-36): a row of the
`transactions` table.  `fromWallet`/`toWallet` are the `from_wallet` and
`to_wallet` columns; `time` is the DB-assigned timestamp, modelled as the
row's insertion index. -/
structure Transaction where
  time : Nat
  fromWallet : String
  toWallet : String
  amount : ℚ
deriving DecidableEq, Repr

/-- The durable store state: the `wallets` table and the `transactions`
table, each as the list of its rows in insertion order. -/
structure DBState where
  wallets : List Wallet
  transactions : List Transaction
deriving DecidableEq, Repr

/-- The error values the store operations produce.  `noRows` is
`sql.ErrNoRows` (a `QueryRow` that matched nothing), `duplicateKey` is a
primary-key violation on `INSERT INTO wallets`, and `insufficientFunds`
is the `fmt.Errorf("insufficient funds")` of `Transfer`. -/
inductive DBError where
  | noRows
  | duplicateKey
  | insufficientFunds
deriving DecidableEq, Repr

/-- `SELECT ... FROM wallets WHERE id = $1` through `QueryRow`: the first
row whose id matches, if any. -/
def lookupWallet (ws : List Wallet) (wid : String) : Option Wallet :=
  ws.find? (fun w => w.id == wid)

/-- `UPDATE wallets SET balance = balance + $1 WHERE id = $2`: add `d` to
the balance of every row whose id is `wid`; rows with other ids are
untouched, and a `wid` matching no row is not an error. -/
def updateBalance (ws : List Wallet) (wid : String) (d : ℚ) : List Wallet :=
  ws.map (fun w => if w.id == wid then { w with balance := w.balance + d } else w)

/-- `CreateWallet` of src/main.go (lines 50-63): insert a new row with the
freshly generated id and the fixed initial balance `100.0`, returning the
new wallet.  The id is passed in (the model of `uuid.New().String()`);
inserting an id already present violates the table's key and fails. -/
def CreateWallet (s : DBState) (freshID : String) : Except DBError (DBState × Wallet) :=
  if s.wallets.any (fun w => w.id == freshID) then
    .error .duplicateKey
  else
    .ok ({ s with wallets := s.wallets ++ [⟨freshID, 100⟩] }, ⟨freshID, 100⟩)

/-- `GetWallet` of src/main.go (lines 66-73): point read of a wallet row;
`sql.ErrNoRows` when the id does not exist. -/
def GetWallet (s : DBState) (walletID : String) : Except DBError Wallet :=
  match lookupWallet s.wallets walletID with
  | none => .error .noRows
  | some w => .ok w

/-- `Transfer` of src/main.go (lines 76-117): read the sender's balance
(`SELECT balance ... FOR UPDATE`, failing with `sql.ErrNoRows` when the
sender does not exist), fail with `insufficient funds` when that balance
is below `amount`, otherwise debit the sender, credit the recipient
(an UPDATE that silently matches zero rows when `toID` does not exist),
append the transaction record, and commit.  Every error path rolls the
transaction back, so an error result leaves the state unchanged. -/
def Transfer (s : DBState) (fromID toID : String) (amount : ℚ) : Except DBError DBState :=
  match lookupWallet s.wallets fromID with
  | none => .error .noRows
  | some fromW =>
    if fromW.balance < amount then
      .error .insufficientFunds
    else
      .ok { wallets := updateBalance (updateBalance s.wallets fromID (-amount)) toID amount,
            transactions := s.transactions ++
              [⟨s.transactions.length, fromID, toID, amount⟩] }

/-- The rows of the `transactions` table where the given wallet is sender
or recipient: the result set of the `GetHistory` query
(`... WHERE from_wallet = $1 OR to_wallet = $1`). -/
def historyOf (s : DBState) (walletID : String) : List Transaction :=
  s.transactions.filter (fun t => t.fromWallet == walletID || t.toWallet == walletID)

/-- `GetHistory` of src/main.go (lines 120-142): the transactions where
the wallet is sender or recipient.  No existence check is made, and an
empty result set is returned as an empty list, not an error. -/
def GetHistory (s : DBState) (walletID : String) : Except DBError (List Transaction) :=
  .ok (historyOf s walletID)

/-- The order in which `Transfer` acquires row locks inside its
transaction: first the sender row (`SELECT ... FOR UPDATE` on `fromID`,
line 85), then the recipient row (the `UPDATE` on `toID`, line 101,
takes its row lock).  The sequence follows the argument order of the
call, not a canonical order on the ids. -/
def transferLockOrder (fromID toID : String) : List String :=
  [fromID, toID]

/-- `Wallet.Balance` and `Transaction.Amount` are Go `float64` fields
(src/main.go lines 27 and 35).  Every finite `float64` value is a dyadic
rational `m / 2^e`, so a monetary amount is exactly storable in those
fields only when it has this form. -/
def dyadicRational (q : ℚ) : Prop :=
  ∃ (m : ℤ) (e : ℕ), q * 2 ^ e = m

/-- One client request against the store, as dispatched by the HTTP
handlers of src/main.go. -/
inductive Op where
  | createWallet (freshID : String)
  | getWallet (walletID : String)
  | transfer (fromID toID : String) (amount : ℚ)
  | getHistory (walletID : String)

/-- Execute one request: a failed operation rolled its transaction back
and leaves the state unchanged; reads never change the state. -/
def applyOp (s : DBState) (op : Op) : DBState :=
  match op with
  | .createWallet freshID =>
    match CreateWallet s freshID with
    | .ok (s', _) => s'
    | .error _ => s
  | .transfer fromID toID amount =>
    match Transfer s fromID toID amount with
    | .ok s' => s'
    | .error _ => s
  | .getWallet _ => s
  | .getHistory _ => s

/-- Execute a sequence of requests in order. -/
def run (s : DBState) (ops : List Op) : DBState :=
  ops.foldl applyOp s

/-- Sum of the balances of a list of wallet rows. -/
def walletsTotal (ws : List Wallet) : ℚ :=
  (ws.map Wallet.balance).sum

/-- Sum of all account balances in the store. -/
def totalBalance (s : DBState) : ℚ :=
  walletsTotal s.wallets

/-- The `wallets` table is keyed by `id`: no two rows share an id. -/
def NodupIDs (ws : List Wallet) : Prop :=
  (ws.map Wallet.id).Nodup

/-- Every wallet row has a non-negative balance. -/
def NonnegBalances (ws : List Wallet) : Prop :=
  ∀ w ∈ ws, 0 ≤ w.balance

/-- The request moves a positive amount (trivial for non-transfers). -/
def opAmountPos : Op → Prop
  | .transfer _ _ amount => 0 < amount
  | _ => True

/-! ## Basic lemmas about the store operations -/

theorem updateBalance_map_id (ws : List Wallet) (wid : String) (d : ℚ) :
    (updateBalance ws wid d).map Wallet.id = ws.map Wallet.id := by
  unfold updateBalance
  rw [List.map_map]
  apply List.map_congr_left
  intro w _
  by_cases h : (w.id == wid) = true <;> simp [Function.comp, h]

theorem lookupWallet_prop (ws : List Wallet) (wid : String) (w : Wallet)
    (h : lookupWallet ws wid = some w) : w ∈ ws ∧ w.id = wid := by
  refine ⟨List.mem_of_find?_eq_some h, ?_⟩
  simpa using List.find?_some h

theorem lookupWallet_unique (ws : List Wallet) (wid : String) (w v : Wallet)
    (hN : NodupIDs ws) (hw : w ∈ ws) (hid : w.id = wid)
    (hv : lookupWallet ws wid = some v) : w = v := by
  induction ws with
  | nil => cases hw
  | cons x xs ih =>
    have hN' : x.id ∉ xs.map Wallet.id ∧ NodupIDs xs := by
      simpa [NodupIDs, List.nodup_cons] using hN
    by_cases hx : (x.id == wid) = true
    · have hxv : v = x := by
        have hfind : lookupWallet (x :: xs) wid = some x := by
          unfold lookupWallet
          exact List.find?_cons_of_pos _ hx
        rw [hfind] at hv
        exact (Option.some.inj hv).symm
      rcases List.mem_cons.mp hw with rfl | hw2
      · exact hxv.symm
      · exfalso
        have hxid : x.id = wid := by simpa using hx
        exact hN'.1 (List.mem_map.mpr ⟨w, hw2, by rw [hid, hxid]⟩)
    · have hfind : lookupWallet (x :: xs) wid = lookupWallet xs wid := by
        unfold lookupWallet
        exact List.find?_cons_of_neg _ hx
      rw [hfind] at hv
      rcases List.mem_cons.mp hw with rfl | hw2
      · exact absurd (by simp [hid]) hx
      · exact ih hN'.2 hw2 hv

theorem countP_id_eq_count (ws : List Wallet) (wid : String) :
    ws.countP (fun w => w.id == wid) = (ws.map Wallet.id).count wid := by
  rw [List.count_eq_countP, List.countP_map]
  rfl

theorem walletsTotal_updateBalance (ws : List Wallet) (wid : String) (d : ℚ) :
    walletsTotal (updateBalance ws wid d) =
      walletsTotal ws + d * (ws.countP (fun w => w.id == wid) : ℚ) := by
  induction ws with
  | nil => simp [walletsTotal, updateBalance]
  | cons x xs ih =>
    by_cases h : (x.id == wid) = true <;>
      simp only [walletsTotal, updateBalance, List.map_cons, List.sum_cons,
        List.countP_cons, h, if_true, if_false] at ih ⊢ <;>
      push_cast <;> linarith [ih]

theorem Transfer_ok_elim {s : DBState} {f t : String} {a : ℚ} {s' : DBState}
    (h : Transfer s f t a = .ok s') :
    ∃ w, lookupWallet s.wallets f = some w ∧ a ≤ w.balance ∧
      s'.wallets = updateBalance (updateBalance s.wallets f (-a)) t a ∧
      s'.transactions = s.transactions ++ [⟨s.transactions.length, f, t, a⟩] := by
  unfold Transfer at h
  cases hw : lookupWallet s.wallets f with
  | none => rw [hw] at h; cases h
  | some w =>
    rw [hw] at h
    dsimp only at h
    by_cases hb : w.balance < a
    · rw [if_pos hb] at h; cases h
    · rw [if_neg hb] at h
      cases Except.ok.inj h
      exact ⟨w, rfl, le_of_not_lt hb, rfl, rfl⟩

theorem updateBalance_cancel (ws : List Wallet) (wid : String) (a : ℚ) :
    updateBalance (updateBalance ws wid (-a)) wid a = ws := by
  unfold updateBalance
  rw [List.map_map]
  have hid : ∀ w ∈ ws,
      ((fun w => if w.id == wid then { w with balance := w.balance + a } else w) ∘
        (fun w => if w.id == wid then { w with balance := w.balance + -a } else w)) w =
      id w := by
    intro w _
    by_cases h : (w.id == wid) = true <;> simp [Function.comp, h]
  rw [List.map_congr_left hid, List.map_id]

theorem Transfer_preserves_nonneg {s : DBState} {f t : String} {a : ℚ} {s' : DBState}
    (hN : NodupIDs s.wallets) (h0 : NonnegBalances s.wallets) (ha : 0 ≤ a)
    (h : Transfer s f t a = .ok s') : NonnegBalances s'.wallets := by
  obtain ⟨wf, hwf, hle, hwals, -⟩ := Transfer_ok_elim h
  intro w' hw'
  rw [hwals] at hw'
  unfold updateBalance at hw'
  rw [List.map_map] at hw'
  obtain ⟨w, hwmem, rfl⟩ := List.mem_map.mp hw'
  have hwb : 0 ≤ w.balance := h0 w hwmem
  by_cases hf : (w.id == f) = true
  · have hwwf : w = wf := lookupWallet_unique _ f w wf hN hwmem (by simpa using hf) hwf
    have hge : a ≤ w.balance := hwwf ▸ hle
    by_cases ht : (w.id == t) = true <;> simp [Function.comp, hf, ht] <;> linarith
  · by_cases ht : (w.id == t) = true <;> simp [Function.comp, hf, ht] <;> linarith

theorem applyOp_preserves_inv (s : DBState) (op : Op)
    (hN : NodupIDs s.wallets) (h0 : NonnegBalances s.wallets) (hop : opAmountPos op) :
    NodupIDs (applyOp s op).wallets ∧ NonnegBalances (applyOp s op).wallets := by
  cases op with
  | getWallet wid => exact ⟨hN, h0⟩
  | getHistory wid => exact ⟨hN, h0⟩
  | createWallet freshID =>
    cases hc : CreateWallet s freshID with
    | error e => simpa only [applyOp, hc] using ⟨hN, h0⟩
    | ok p =>
      obtain ⟨s', w⟩ := p
      simp only [applyOp, hc]
      unfold CreateWallet at hc
      by_cases h : (s.wallets.any (fun w => w.id == freshID)) = true
      · rw [if_pos h] at hc; cases hc
      · rw [if_neg h] at hc
        cases Except.ok.inj hc
        dsimp only
        constructor
        · have hnotin : freshID ∉ s.wallets.map Wallet.id := by
            intro hmem
            obtain ⟨v, hv, hvid⟩ := List.mem_map.mp hmem
            exact h (List.any_eq_true.mpr ⟨v, hv, by simp [hvid]⟩)
          unfold NodupIDs at hN ⊢
          rw [List.map_append]
          refine List.Nodup.append hN (List.nodup_singleton _) ?_
          intro x hx hx2
          obtain rfl : x = freshID := by simpa using hx2
          exact hnotin hx
        · intro v hv
          rcases List.mem_append.mp hv with h1 | h2
          · exact h0 v h1
          · have hveq : v = ⟨freshID, 100⟩ := by simpa using h2
            rw [hveq]
            norm_num
  | transfer f t a =>
    cases htr : Transfer s f t a with
    | error e => simpa only [applyOp, htr] using ⟨hN, h0⟩
    | ok s' =>
      simp only [applyOp, htr]
      obtain ⟨wf, hwf, hle, hwals, -⟩ := Transfer_ok_elim htr
      constructor
      · unfold NodupIDs
        rw [hwals, updateBalance_map_id, updateBalance_map_id]
        exact hN
      · exact Transfer_preserves_nonneg hN h0 (le_of_lt hop) htr

theorem run_preserves_inv (s : DBState) (ops : List Op)
    (hN : NodupIDs s.wallets) (h0 : NonnegBalances s.wallets)
    (hops : ∀ op ∈ ops, opAmountPos op) :
    NodupIDs (run s ops).wallets ∧ NonnegBalances (run s ops).wallets := by
  induction ops generalizing s with
  | nil => exact ⟨hN, h0⟩
  | cons op ops ih =>
    have hstep := applyOp_preserves_inv s op hN h0 (hops op (List.mem_cons_self _ _))
    exact ih (applyOp s op) hstep.1 hstep.2 (fun o ho => hops o (List.mem_cons_of_mem _ ho))

/-! ## Claims -/

/-- C1: the claim says a Transfer whose recipient id does not exist fails
with NotFound and changes nothing.  The code checks only the sender: the
recipient-side `UPDATE` silently matches zero rows.  In a store holding
only account "X" (balance 100), the recipient "nonexistent" does not
exist (`GetWallet` fails with `noRows`), yet
`Transfer("X", "nonexistent", 10)` commits, debits the sender to 90 and
appends a transfer record — the 10 units vanish from the system. -/
theorem transfer_to_missing_recipient_succeeds :
    GetWallet ⟨[⟨"X", 100⟩], []⟩ "nonexistent" = .error .noRows ∧
    Transfer ⟨[⟨"X", 100⟩], []⟩ "X" "nonexistent" 10 =
      .ok ⟨[⟨"X", 90⟩], [⟨0, "X", "nonexistent", 10⟩]⟩ := by
  constructor
  · simp [GetWallet, lookupWallet, List.find?]
  · simp [Transfer, lookupWallet, updateBalance, List.find?]
    norm_num

/-- C2: the claim says a Transfer with non-positive amount fails with
InvalidAmount and mutates nothing.  The code performs no amount
validation: with accounts "X" and "Y" at balance 100 each, a transfer of
`-10` commits and moves 10 units from "Y" to "X", and a transfer of `0`
commits as well; both append a transfer record. -/
theorem transfer_nonpositive_amount_succeeds :
    Transfer ⟨[⟨"X", 100⟩, ⟨"Y", 100⟩], []⟩ "X" "Y" (-10) =
      .ok ⟨[⟨"X", 110⟩, ⟨"Y", 90⟩], [⟨0, "X", "Y", -10⟩]⟩ ∧
    Transfer ⟨[⟨"X", 100⟩, ⟨"Y", 100⟩], []⟩ "X" "Y" 0 =
      .ok ⟨[⟨"X", 100⟩, ⟨"Y", 100⟩], [⟨0, "X", "Y", 0⟩]⟩ := by
  refine ⟨?_, ?_⟩
  · simp [Transfer, lookupWallet, updateBalance, List.find?]
    norm_num
  · simp [Transfer, lookupWallet, updateBalance, List.find?]

/-- C3 (counterexample): starting from an empty store, creating accounts
"X" and "Y" and then transferring `-1000` from "X" to "Y" completes, and
leaves "Y" with balance `-900 < 0`: a sequence of completed operations
does drive a balance negative, against the claim. -/
theorem balance_negative_after_negative_transfer :
    GetWallet (run ⟨[], []⟩
        [.createWallet "X", .createWallet "Y", .transfer "X" "Y" (-1000)]) "Y" =
      .ok ⟨"Y", -900⟩ ∧ ((-900 : ℚ) < 0) := by
  constructor
  · simp [run, applyOp, CreateWallet, Transfer, GetWallet, lookupWallet,
      updateBalance, List.find?]
    norm_num
  · norm_num

/-- C3 (amended): from any well-formed store (ids unique as the primary
key guarantees, balances non-negative), after any sequence of completed
operations in which every Transfer moves a strictly positive amount,
every account balance is still non-negative. -/
theorem balances_nonneg_of_positive_amounts (s : DBState) (ops : List Op)
    (hN : NodupIDs s.wallets) (h0 : NonnegBalances s.wallets)
    (hops : ∀ op ∈ ops, opAmountPos op) :
    NonnegBalances (run s ops).wallets :=
  (run_preserves_inv s ops hN h0 hops).2

/-- Witness for the amended C3: creating "X" and "Y" and transferring 50
from "X" to "Y" leaves every balance non-negative. -/
theorem balances_nonneg_of_positive_amounts_witness :
    NonnegBalances (run ⟨[], []⟩
      [.createWallet "X", .createWallet "Y", .transfer "X" "Y" 50]).wallets :=
  balances_nonneg_of_positive_amounts ⟨[], []⟩ _
    (by simp [NodupIDs])
    (fun w hw => absurd hw (List.not_mem_nil w))
    (by
      intro op hop
      simp only [List.mem_cons, List.not_mem_nil, or_false] at hop
      rcases hop with rfl | rfl | rfl <;> simp [opAmountPos])

/-- C4 (counterexample): after creating account "X" the total balance is
100; the successful `Transfer("X", "Z", 10)` (recipient "Z" does not
exist) leaves the total at 90: the sum of balances is not invariant
across successful transfers, against the claim. -/
theorem total_changed_by_missing_recipient :
    totalBalance (run ⟨[], []⟩ [.createWallet "X"]) = 100 ∧
    Transfer (run ⟨[], []⟩ [.createWallet "X"]) "X" "Z" 10 =
      .ok ⟨[⟨"X", 90⟩], [⟨0, "X", "Z", 10⟩]⟩ ∧
    totalBalance ⟨[⟨"X", 90⟩], [⟨0, "X", "Z", 10⟩]⟩ = 90 := by
  refine ⟨?_, ?_, ?_⟩
  · simp [run, applyOp, CreateWallet, totalBalance, walletsTotal]
  · simp [run, applyOp, CreateWallet, Transfer, lookupWallet, updateBalance,
      List.find?]
    norm_num
  · simp [totalBalance, walletsTotal]

/-- C4 (amended): in a store whose ids are unique, a successful Transfer
whose recipient id exists preserves the sum of all balances, and a
successful CreateWallet adds exactly the fixed initial balance 100 to
that sum.  (A successful transfer to a nonexistent recipient, which the
code allows, decreases the sum — see the counterexample.) -/
theorem totalBalance_conservation (s : DBState) (f t : String) (a : ℚ)
    (s' s₂ : DBState) (newID : String) (w : Wallet) :
    (NodupIDs s.wallets → t ∈ s.wallets.map Wallet.id →
      Transfer s f t a = .ok s' → totalBalance s' = totalBalance s) ∧
    (CreateWallet s newID = .ok (s₂, w) → totalBalance s₂ = totalBalance s + 100) := by
  constructor
  · intro hN ht h
    obtain ⟨wf, hwf, hle, hwals, -⟩ := Transfer_ok_elim h
    have hf : f ∈ s.wallets.map Wallet.id := by
      obtain ⟨hmem, hid⟩ := lookupWallet_prop _ _ _ hwf
      exact List.mem_map.mpr ⟨wf, hmem, hid⟩
    have cf : s.wallets.countP (fun w => w.id == f) = 1 := by
      rw [countP_id_eq_count]
      exact List.count_eq_one_of_mem hN hf
    have ct : (updateBalance s.wallets f (-a)).countP (fun w => w.id == t) = 1 := by
      rw [countP_id_eq_count, updateBalance_map_id]
      exact List.count_eq_one_of_mem hN ht
    unfold totalBalance
    rw [hwals, walletsTotal_updateBalance, walletsTotal_updateBalance, cf, ct]
    push_cast
    ring
  · intro h
    unfold CreateWallet at h
    by_cases hex : (s.wallets.any (fun w => w.id == newID)) = true
    · rw [if_pos hex] at h; cases h
    · rw [if_neg hex] at h
      cases Except.ok.inj h
      simp [totalBalance, walletsTotal]

/-- Witness for the amended C4: a transfer of 30 between the existing
accounts "X" and "Y" keeps the total at 200, and creating "Z" raises it
by exactly 100. -/
theorem totalBalance_conservation_witness :
    totalBalance ⟨[⟨"X", 70⟩, ⟨"Y", 130⟩], [⟨0, "X", "Y", 30⟩]⟩ =
      totalBalance ⟨[⟨"X", 100⟩, ⟨"Y", 100⟩], []⟩ ∧
    totalBalance ⟨[⟨"X", 100⟩, ⟨"Y", 100⟩, ⟨"Z", 100⟩], []⟩ =
      totalBalance ⟨[⟨"X", 100⟩, ⟨"Y", 100⟩], []⟩ + 100 :=
  ⟨(totalBalance_conservation ⟨[⟨"X", 100⟩, ⟨"Y", 100⟩], []⟩ "X" "Y" 30
      ⟨[⟨"X", 70⟩, ⟨"Y", 130⟩], [⟨0, "X", "Y", 30⟩]⟩
      ⟨[⟨"X", 100⟩, ⟨"Y", 100⟩, ⟨"Z", 100⟩], []⟩ "Z" ⟨"Z", 100⟩).1
      (by simp [NodupIDs])
      (by simp)
      (by simp [Transfer, lookupWallet, updateBalance, List.find?]; norm_num),
   (totalBalance_conservation ⟨[⟨"X", 100⟩, ⟨"Y", 100⟩], []⟩ "X" "Y" 30
      ⟨[⟨"X", 70⟩, ⟨"Y", 130⟩], [⟨0, "X", "Y", 30⟩]⟩
      ⟨[⟨"X", 100⟩, ⟨"Y", 100⟩, ⟨"Z", 100⟩], []⟩ "Z" ⟨"Z", 100⟩).2
      (by simp [CreateWallet])⟩

/-- C5: when the sender exists and its balance is strictly below the
requested amount, Transfer fails with the insufficient-funds error, and
the operation leaves the store state exactly as it was: no balance
changes and no transfer record. -/
theorem transfer_insufficient_funds_atomic (s : DBState) (fromID toID : String)
    (amount : ℚ) (w : Wallet) (hw : lookupWallet s.wallets fromID = some w)
    (hlt : w.balance < amount) :
    Transfer s fromID toID amount = .error .insufficientFunds ∧
      applyOp s (.transfer fromID toID amount) = s := by
  have h1 : Transfer s fromID toID amount = .error .insufficientFunds := by
    unfold Transfer
    rw [hw]
    dsimp only
    rw [if_pos hlt]
  refine ⟨h1, ?_⟩
  simp only [applyOp, h1]

/-- Witness for C5: `Transfer("X", "Y", 1000)` with "X" at balance 50
fails with insufficient funds and the state is untouched. -/
theorem transfer_insufficient_funds_atomic_witness :
    Transfer ⟨[⟨"X", 50⟩], []⟩ "X" "Y" 1000 = .error .insufficientFunds ∧
      applyOp ⟨[⟨"X", 50⟩], []⟩ (.transfer "X" "Y" 1000) = ⟨[⟨"X", 50⟩], []⟩ :=
  transfer_insufficient_funds_atomic ⟨[⟨"X", 50⟩], []⟩ "X" "Y" 1000 ⟨"X", 50⟩
    (by simp [lookupWallet, List.find?]) (by norm_num)

/-- C6: from an empty store, creating accounts X and Y (any two distinct
ids) gives each the initial balance 100; `Transfer(X, Y, 50)` then
succeeds, `GetWallet` reports balance 50 for X and 150 for Y, and the
history of X is exactly the one record (from X, to Y, amount 50). -/
theorem scenario_create_create_transfer (X Y : String) (hXY : X ≠ Y) :
    CreateWallet ⟨[], []⟩ X = .ok (⟨[⟨X, 100⟩], []⟩, ⟨X, 100⟩) ∧
    CreateWallet ⟨[⟨X, 100⟩], []⟩ Y = .ok (⟨[⟨X, 100⟩, ⟨Y, 100⟩], []⟩, ⟨Y, 100⟩) ∧
    Transfer ⟨[⟨X, 100⟩, ⟨Y, 100⟩], []⟩ X Y 50 =
      .ok ⟨[⟨X, 50⟩, ⟨Y, 150⟩], [⟨0, X, Y, 50⟩]⟩ ∧
    GetWallet ⟨[⟨X, 50⟩, ⟨Y, 150⟩], [⟨0, X, Y, 50⟩]⟩ X = .ok ⟨X, 50⟩ ∧
    GetWallet ⟨[⟨X, 50⟩, ⟨Y, 150⟩], [⟨0, X, Y, 50⟩]⟩ Y = .ok ⟨Y, 150⟩ ∧
    GetHistory ⟨[⟨X, 50⟩, ⟨Y, 150⟩], [⟨0, X, Y, 50⟩]⟩ X = .ok [⟨0, X, Y, 50⟩] := by
  have hYX : Y ≠ X := Ne.symm hXY
  have hb1 : (X == Y) = false := beq_eq_false_iff_ne.mpr hXY
  have hb2 : (Y == X) = false := beq_eq_false_iff_ne.mpr hYX
  refine ⟨?_, ?_, ?_, ?_, ?_, ?_⟩ <;>
    simp [CreateWallet, Transfer, GetWallet, GetHistory, historyOf, lookupWallet,
      updateBalance, List.find?, List.filter, hXY, hYX, hb1, hb2]
  all_goals norm_num

/-- Witness for C6: the scenario at the concrete ids "X" and "Y". -/
theorem scenario_create_create_transfer_witness :
    CreateWallet ⟨[], []⟩ "X" = .ok (⟨[⟨"X", 100⟩], []⟩, ⟨"X", 100⟩) ∧
    CreateWallet ⟨[⟨"X", 100⟩], []⟩ "Y" =
      .ok (⟨[⟨"X", 100⟩, ⟨"Y", 100⟩], []⟩, ⟨"Y", 100⟩) ∧
    Transfer ⟨[⟨"X", 100⟩, ⟨"Y", 100⟩], []⟩ "X" "Y" 50 =
      .ok ⟨[⟨"X", 50⟩, ⟨"Y", 150⟩], [⟨0, "X", "Y", 50⟩]⟩ ∧
    GetWallet ⟨[⟨"X", 50⟩, ⟨"Y", 150⟩], [⟨0, "X", "Y", 50⟩]⟩ "X" = .ok ⟨"X", 50⟩ ∧
    GetWallet ⟨[⟨"X", 50⟩, ⟨"Y", 150⟩], [⟨0, "X", "Y", 50⟩]⟩ "Y" = .ok ⟨"Y", 150⟩ ∧
    GetHistory ⟨[⟨"X", 50⟩, ⟨"Y", 150⟩], [⟨0, "X", "Y", 50⟩]⟩ "X" =
      .ok [⟨0, "X", "Y", 50⟩] :=
  scenario_create_create_transfer "X" "Y" (by decide)

/-- C7: for an existing account with no transfers, GetHistory returns the
empty list and not an error; and after any successful Transfer the
appended record — with exactly that from, to and amount — appears in both
the sender's and the recipient's history. -/
theorem history_empty_and_complete (s : DBState) (wid : String) (w : Wallet)
    (f t : String) (a : ℚ) (s' : DBState) :
    ((lookupWallet s.wallets wid = some w) →
      (∀ tr ∈ s.transactions, tr.fromWallet ≠ wid ∧ tr.toWallet ≠ wid) →
      GetHistory s wid = .ok []) ∧
    (Transfer s f t a = .ok s' →
      ∃ r : Transaction, r.fromWallet = f ∧ r.toWallet = t ∧ r.amount = a ∧
        GetHistory s' f = .ok (historyOf s' f) ∧
        GetHistory s' t = .ok (historyOf s' t) ∧
        r ∈ historyOf s' f ∧ r ∈ historyOf s' t) := by
  constructor
  · intro _ h2
    unfold GetHistory
    congr 1
    unfold historyOf
    rw [List.filter_eq_nil_iff]
    intro tr htr
    have hne := h2 tr htr
    simp [hne.1, hne.2]
  · intro h
    obtain ⟨wf, hwf, hle, -, htrs⟩ := Transfer_ok_elim h
    refine ⟨⟨s.transactions.length, f, t, a⟩, rfl, rfl, rfl, rfl, rfl, ?_, ?_⟩ <;>
    · unfold historyOf
      rw [htrs]
      refine List.mem_filter.mpr
        ⟨List.mem_append_right _ (List.mem_singleton.mpr rfl), ?_⟩
      simp

/-- Witness for C7: "X" (existing, no transfers) has empty history in the
two-account store, and after the successful `Transfer("X", "Y", 50)` the
record appears in the history of both "X" and "Y". -/
theorem history_empty_and_complete_witness :
    GetHistory ⟨[⟨"X", 100⟩, ⟨"Y", 100⟩], []⟩ "X" = .ok [] ∧
    (∃ r : Transaction, r.fromWallet = "X" ∧ r.toWallet = "Y" ∧ r.amount = 50 ∧
      GetHistory ⟨[⟨"X", 50⟩, ⟨"Y", 150⟩], [⟨0, "X", "Y", 50⟩]⟩ "X" =
        .ok (historyOf ⟨[⟨"X", 50⟩, ⟨"Y", 150⟩], [⟨0, "X", "Y", 50⟩]⟩ "X") ∧
      GetHistory ⟨[⟨"X", 50⟩, ⟨"Y", 150⟩], [⟨0, "X", "Y", 50⟩]⟩ "Y" =
        .ok (historyOf ⟨[⟨"X", 50⟩, ⟨"Y", 150⟩], [⟨0, "X", "Y", 50⟩]⟩ "Y") ∧
      r ∈ historyOf ⟨[⟨"X", 50⟩, ⟨"Y", 150⟩], [⟨0, "X", "Y", 50⟩]⟩ "X" ∧
      r ∈ historyOf ⟨[⟨"X", 50⟩, ⟨"Y", 150⟩], [⟨0, "X", "Y", 50⟩]⟩ "Y") :=
  ⟨(history_empty_and_complete ⟨[⟨"X", 100⟩, ⟨"Y", 100⟩], []⟩ "X" ⟨"X", 100⟩
      "X" "Y" 50 ⟨[⟨"X", 50⟩, ⟨"Y", 150⟩], [⟨0, "X", "Y", 50⟩]⟩).1
      (by simp [lookupWallet, List.find?]) (by simp),
   (history_empty_and_complete ⟨[⟨"X", 100⟩, ⟨"Y", 100⟩], []⟩ "X" ⟨"X", 100⟩
      "X" "Y" 50 ⟨[⟨"X", 50⟩, ⟨"Y", 150⟩], [⟨0, "X", "Y", 50⟩]⟩).2
      (by simp [Transfer, lookupWallet, updateBalance, List.find?]; norm_num)⟩

/-- C8: the claim says balances and amounts use an exact fixed-point or
decimal representation.  `Wallet.Balance` and `Transaction.Amount` are Go
`float64` fields, whose finite values are exactly the dyadic rationals
`m / 2^e`; the ordinary monetary amount `0.1 = 1/10` is not dyadic, so it
cannot be held exactly, and arithmetic on such amounts rounds. -/
theorem float64_balance_cannot_hold_tenth : ¬ dyadicRational (1 / 10) := by
  rintro ⟨m, e, h⟩
  have h10 : (2 : ℚ) ^ e = 10 * (m : ℚ) := by
    field_simp at h
    linarith
  have hz : (2 : ℤ) ^ e = 10 * m := by exact_mod_cast h10
  have h5 : (5 : ℤ) ∣ 2 ^ e := ⟨2 * m, by linarith⟩
  have hp : Prime (5 : ℤ) := by norm_num
  have h52 : (5 : ℤ) ∣ 2 := hp.dvd_of_dvd_pow h5
  norm_num at h52

/-- C9: the claim says row locks are acquired in a fixed global order on
account ids regardless of transfer direction.  The code's Transfer locks
the sender's row first and the recipient's row second, so the two
directions between the same pair of accounts acquire the locks in
opposite orders — the circular-wait pattern the spec forbids. -/
theorem lock_order_depends_on_direction :
    transferLockOrder "a" "b" = ["a", "b"] ∧
    transferLockOrder "b" "a" = ["b", "a"] ∧
    transferLockOrder "a" "b" ≠ transferLockOrder "b" "a" := by
  refine ⟨rfl, rfl, ?_⟩
  decide

/-- C10: a self-transfer on an existing account whose balance covers the
amount succeeds, leaves the wallets table exactly as it was (the debit
and the credit hit the same row and cancel), and appends exactly one
record with from = to = the account id and the given amount. -/
theorem self_transfer_preserves_balance (s : DBState) (wid : String) (amount : ℚ)
    (w : Wallet) (hw : lookupWallet s.wallets wid = some w)
    (hle : amount ≤ w.balance) :
    Transfer s wid wid amount =
      .ok ⟨s.wallets, s.transactions ++ [⟨s.transactions.length, wid, wid, amount⟩]⟩ := by
  unfold Transfer
  rw [hw]
  dsimp only
  rw [if_neg (not_lt.mpr hle), updateBalance_cancel]

/-- Witness for C10: the self-transfer of 40 on account "A" (balance 100)
succeeds, keeps the balance at 100 and logs one record. -/
theorem self_transfer_preserves_balance_witness :
    Transfer ⟨[⟨"A", 100⟩], []⟩ "A" "A" 40 =
      .ok ⟨[⟨"A", 100⟩], [⟨0, "A", "A", 40⟩]⟩ :=
  self_transfer_preserves_balance ⟨[⟨"A", 100⟩], []⟩ "A" 40 ⟨"A", 100⟩
    (by simp [lookupWallet, List.find?]) (by norm_num)
